import Mathlib

/-!
# Wake2Text streaming session controller: shallow embedding and verification

This file embeds the streaming-session core of the Wake2Text repository
(`src/src/main.cpp`, the whisper C-API variant, and
`src/src/whisper_streaming_transcriber.cpp`, the process-spawn variant) in
Lean 4 and proves or refutes the frozen specification claims about it.

Modelling conventions:
* C++ `short` audio samples become `Int` (their mathematical values).
* `std::vector<short> audio_buffer` becomes `List Int`, front of the vector =
  head of the list.
* The C++ `double` computations of `hasSubstantialSpeech` (RMS via `sqrt`, the
  activity ratio) are embedded with exact arithmetic: `rms < 50.0` is encoded
  as `sum_squares < 2500 * n` (square both sides of
  `sqrt (sum_squares / n) < 50`, `n > 0`), and `speech_ratio < 0.005` as
  `200 * speech_samples < n`.  The division the code performs is additionally
  modelled over `ℚ` with an explicit division-by-zero guard
  (`hasSubstantialSpeechQ`) to settle the safety claim about empty chunks.
* The external collaborators (hotword detector, VAD, whisper engine) are
  oracles: their per-call outputs are parameters of the state-transition
  functions, exactly as the spec's interface section describes them.
* The two source variants share the chunking algorithm but drift in their
  overlap constants; the constants are collected in an `OverlapPolicy` record
  with one value per variant (`mainPolicy` for `main.cpp`, `wstPolicy` for
  `whisper_streaming_transcriber.cpp`).
-/

/-- `TRANSCRIPTION_CHUNK_SIZE` from both variants: 3.0 s of 16 kHz audio. -/
def TRANSCRIPTION_CHUNK_SIZE : Nat := 48000

/-- `SILENCE_THRESHOLD` from both variants: consecutive silent frames that end a cycle. -/
def SILENCE_THRESHOLD : Nat := 30

/-- `MIN_SPEECH_LENGTH` from both variants. -/
def MIN_SPEECH_LENGTH : Nat := 8000

/-- The safety-cutoff buffer length `16000 * 60` (60 s at 16 kHz) used by
`startStreaming` in both variants. -/
def MAX_BUFFER_SAMPLES : Nat := 16000 * 60

/-- The three overlap constants of `processAudioChunk`; the two source variants
instantiate them differently. -/
structure OverlapPolicy where
  skipOverlap : Nat
  firstOverlap : Nat
  laterOverlap : Nat
deriving Repr, DecidableEq

/-- Overlap constants of `src/src/main.cpp::processAudioChunk`:
skipped chunk `CHUNK/8`, first chunk `CHUNK/32`, subsequent chunks `CHUNK/64`. -/
def mainPolicy : OverlapPolicy :=
  { skipOverlap := TRANSCRIPTION_CHUNK_SIZE / 8
    firstOverlap := TRANSCRIPTION_CHUNK_SIZE / 32
    laterOverlap := TRANSCRIPTION_CHUNK_SIZE / 64 }

/-- Overlap constants of
`src/src/whisper_streaming_transcriber.cpp::processAudioChunk`:
skipped chunk `CHUNK/4`, first chunk `CHUNK/16`, subsequent chunks `CHUNK/32`. -/
def wstPolicy : OverlapPolicy :=
  { skipOverlap := TRANSCRIPTION_CHUNK_SIZE / 4
    firstOverlap := TRANSCRIPTION_CHUNK_SIZE / 16
    laterOverlap := TRANSCRIPTION_CHUNK_SIZE / 32 }

/-! ## SpeechGate: `hasSubstantialSpeech` (identical in both variants) -/

/-- The `sum_squares` accumulator of `hasSubstantialSpeech`. -/
def sumSquares (chunk : List Int) : Int :=
  (chunk.map (fun s => s * s)).sum

/-- The `speech_samples` count of `hasSubstantialSpeech`: samples with
`abs(sample) > SPEECH_THRESHOLD` where `SPEECH_THRESHOLD = 200`. -/
def speechSamples (chunk : List Int) : Nat :=
  chunk.countP (fun s => decide ((200 : Int) < |s|))

/-- `hasSubstantialSpeech` from both variants, with the `double` comparisons
rendered exactly: the code rejects when `sqrt (sum_squares / n) < 50.0`
(equivalently `sum_squares < 2500 * n` for `n > 0`), then rejects when
`speech_samples / n < 0.005` (equivalently `200 * speech_samples < n`), and
otherwise accepts.  The empty-chunk guard comes first, as in the source. -/
def hasSubstantialSpeech (chunk : List Int) : Bool :=
  if chunk.isEmpty then false
  else if sumSquares chunk < 2500 * (chunk.length : Int) then false
  else if 200 * speechSamples chunk < chunk.length then false
  else true

/-- Division over `ℚ` with an explicit divide-by-zero guard, used to model the
two `double` divisions of `hasSubstantialSpeech` as fallible operations. -/
def divQ (a b : ℚ) : Option ℚ := if b = 0 then none else some (a / b)

/-- `hasSubstantialSpeech` re-embedded with its two divisions by
`audio_chunk.size()` made explicit and fallible (`none` = division by zero).
The mean square `sum_squares / n` stands for `rms²`, so the `rms < 50.0`
comparison becomes `meanSq < 2500`, and `0.005` is the rational `5/1000`. -/
def hasSubstantialSpeechQ (chunk : List Int) : Option Bool :=
  if chunk.isEmpty then some false
  else
    (divQ ((sumSquares chunk : ℚ)) ((chunk.length : ℚ))).bind fun meanSq =>
      if meanSq < 2500 then some false
      else
        (divQ ((speechSamples chunk : ℚ)) ((chunk.length : ℚ))).bind fun ratio =>
          if ratio < 5 / 1000 then some false
          else some true

/-! ## HallucinationFilter: `isHallucination` -/

/-- The substring blacklist of `isHallucination` (`main.cpp`, lines 87-94; the
same list appears inline in the other variant's `processAudioChunk`). -/
def hallucinationFragments : List String :=
  ["υπότιτλοι", "authorwave", "subtitles", "subtitle", "closed captions",
   "captioning", "transcription", "transcript", "audio", "music",
   "[music]", "[sound]", "[noise]", "[silence]", "[inaudible]",
   "thank you", "thanks for watching", "subscribe", "like and subscribe",
   "www.", ".com", "http", "https",
   "undertekster", "ai-media", "ai media", "undertekst", "tekster",
   "untertitel", "sous-titres", "legendas", "sottotitoli"]

/-- The standalone blacklist of `isHallucination`, compared after stripping
punctuation and whitespace. -/
def standaloneHallucinations : List String :=
  ["thankyou", "thankyouforwatching", "thanks", "thanksforwatching",
   "subscribe", "likeandsubscribe", "pleasesubscribe"]

/-- The characters removed by the standalone check:
`'.' ',' '!' '?' ' ' '\t' '\n' '\r'`. -/
def isPunctOrSpace (c : Char) : Bool :=
  c = '.' || c = ',' || c = '!' || c = '?' || c = ' ' || c = '\t' || c = '\n' || c = '\r'

/-- `std::string::find(pat) != npos` over character lists: `pat` occurs
contiguously somewhere in `hay`. -/
def strContains (hay pat : List Char) : Bool :=
  (List.range (hay.length + 1)).any fun i => pat.isPrefixOf (hay.drop i)

/-- `::tolower` in the C locale: lower-case ASCII letters, leave the rest. -/
def asciiLower (c : Char) : Char :=
  if 'A' ≤ c ∧ c ≤ 'Z' then Char.ofNat (c.toNat + 32) else c

/-- `isHallucination` from `main.cpp` (the identical logic is inlined in
`processAudioChunk` of the other variant): lower-case the text, reject on any
blacklisted substring, then strip punctuation/whitespace and reject on an
exact standalone match. -/
def isHallucination (text : String) : Bool :=
  let lower := text.toList.map asciiLower
  if hallucinationFragments.any (fun h => strContains lower h.toList) then true
  else
    let trimmed := lower.filter (fun c => !(isPunctOrSpace c))
    standaloneHallucinations.any (fun st => trimmed == st.toList)

/-- The acceptance decision applied to each recognized segment before it is
appended: a hallucination contributes nothing, any other segment is passed
through unchanged. -/
def acceptSegment (s : String) : Option String :=
  if isHallucination s then none else some s

/-! ## Recognition-engine invocation: `transcribeWithWhisper`

Both variants wrap an external engine.  The engine's behaviour on one call is
an oracle value; what the source owns is how each outcome is turned into the
string handed back to `processAudioChunk` / `finalizeTranscription`. -/

/-- Membership in the `" \t\n\r"` set used by the segment trimming. -/
def isWsChar (c : Char) : Bool :=
  c = ' ' || c = '\t' || c = '\n' || c = '\r'

/-- Trim of leading/trailing `" \t\n\r"` applied to each whisper segment. -/
def trimWs (s : String) : String :=
  String.mk (((s.toList.dropWhile isWsChar).reverse.dropWhile isWsChar).reverse)

/-- One outcome of a `whisper_full` C-API call (`main.cpp` variant):
either the list of segment texts, or a non-zero return code, or the
(post-constructor unreachable) null-context guard. -/
inductive CapiOutcome where
  | ok (segments : List String)
  | engineError
  | ctxMissing
deriving Repr, DecidableEq

/-- The segment-accumulation step of `main.cpp::transcribeWithWhisper`:
trim the segment, skip it when empty or a hallucination, otherwise append it
with a single separating space. -/
def appendSegment (acc : String) (seg : String) : String :=
  let t := trimWs seg
  if t = "" then acc
  else if isHallucination t then acc
  else if acc = "" then t else acc ++ " " ++ t

/-- `main.cpp::transcribeWithWhisper` (lines 267-328) as a function of the
engine outcome: a failed `whisper_full` call yields `""`, a missing context
yields the literal `"[Whisper not initialized]"`, and success yields the
hallucination-filtered, space-joined segment texts. -/
def transcribeWithWhisper : CapiOutcome → String
  | CapiOutcome.ok segs => segs.foldl appendSegment ""
  | CapiOutcome.engineError => ""
  | CapiOutcome.ctxMissing => "[Whisper not initialized]"

/-- One outcome of the process-spawn invocation in
`whisper_streaming_transcriber.cpp::transcribeWithWhisper`: either the parsed
console text, or a `CreatePipe` failure, or a `CreateProcessA` failure with a
Windows error code. -/
inductive ProcOutcome where
  | ok (text : String)
  | pipeFailure
  | spawnFailure (err : Nat)
deriving Repr, DecidableEq

/-- `whisper_streaming_transcriber.cpp::transcribeWithWhisper` (lines 313-516)
as a function of the spawn outcome: pipe/process creation failures return
bracketed error strings (not empty results). -/
def transcribeWithWhisperProc : ProcOutcome → String
  | ProcOutcome.ok t => t
  | ProcOutcome.pipeFailure => "[CreatePipe failed]"
  | ProcOutcome.spawnFailure err => "[CreateProcess failed: " ++ toString err ++ "]"

/-! ## Session state and `processAudioChunk` -/

/-- The per-session mutable fields of `WhisperStreamingTranscriber` that the
streaming loop reads and writes. -/
structure SessionState where
  audioBuffer : List Int
  isListening : Bool
  silenceCounter : Nat
  speechCounter : Nat
  currentTranscription : String
  transcriptionStarted : Bool
  chunkCount : Nat
  recordedSamples : Nat
deriving Repr, DecidableEq

/-- The state established by the hotword branch of `startStreaming` when
`detection_result > 0`: listening begins with every per-cycle field reset. -/
def resetForListening (st : SessionState) : SessionState :=
  { st with
    isListening := true
    audioBuffer := []
    silenceCounter := 0
    speechCounter := 0
    currentTranscription := ""
    transcriptionStarted := false
    recordedSamples := 0
    chunkCount := 0 }

/-- The freshly reset listening state (used as the start of a cycle). -/
def initialSession : SessionState :=
  resetForListening
    { audioBuffer := [], isListening := false, silenceCounter := 0, speechCounter := 0,
      currentTranscription := "", transcriptionStarted := false, chunkCount := 0,
      recordedSamples := 0 }

/-- `processAudioChunk`, common shape of both variants, parameterized by the
variant's overlap constants and by the recognizer oracle (the string
`transcribeWithWhisper` returns for a chunk; for the process-spawn variant the
inline hallucination filtering is composed into the oracle, see
`processAudioChunkWst`).  When the buffer holds a full chunk: take the first
`TRANSCRIPTION_CHUNK_SIZE` samples; if the SpeechGate rejects them, drop
`CHUNK - skipOverlap` samples from the front and stop; otherwise recognize,
append non-empty text (marking the transcription started), increment
`chunk_count` and drop `CHUNK - overlap` front samples where the overlap is
`firstOverlap` for chunk 1 and `laterOverlap` afterwards. -/
def processAudioChunk (pol : OverlapPolicy) (recognize : List Int → String)
    (st : SessionState) : SessionState :=
  if TRANSCRIPTION_CHUNK_SIZE ≤ st.audioBuffer.length then
    let chunk := st.audioBuffer.take TRANSCRIPTION_CHUNK_SIZE
    if hasSubstantialSpeech chunk = false then
      { st with audioBuffer := st.audioBuffer.drop (TRANSCRIPTION_CHUNK_SIZE - pol.skipOverlap) }
    else
      let text := recognize chunk
      let st1 :=
        if text ≠ "" then
          { st with
            transcriptionStarted := true
            currentTranscription := st.currentTranscription ++ text ++ " " }
        else st
      let newCount := st.chunkCount + 1
      let ov := if newCount = 1 then pol.firstOverlap else pol.laterOverlap
      { st1 with
        chunkCount := newCount
        audioBuffer := st.audioBuffer.drop (TRANSCRIPTION_CHUNK_SIZE - ov) }
  else st

/-- `whisper_streaming_transcriber.cpp::processAudioChunk` (lines 632-734):
the same algorithm with the `wstPolicy` overlaps, except that the
hallucination check on the transcribed text happens here (inline) rather than
inside `transcribeWithWhisper`. -/
def processAudioChunkWst (recognize : List Int → String)
    (st : SessionState) : SessionState :=
  if TRANSCRIPTION_CHUNK_SIZE ≤ st.audioBuffer.length then
    let chunk := st.audioBuffer.take TRANSCRIPTION_CHUNK_SIZE
    if hasSubstantialSpeech chunk = false then
      { st with audioBuffer := st.audioBuffer.drop (TRANSCRIPTION_CHUNK_SIZE - wstPolicy.skipOverlap) }
    else
      let text := recognize chunk
      let st1 :=
        if text ≠ "" ∧ isHallucination text = false then
          { st with
            transcriptionStarted := true
            currentTranscription := st.currentTranscription ++ text ++ " " }
        else st
      let newCount := st.chunkCount + 1
      let ov := if newCount = 1 then wstPolicy.firstOverlap else wstPolicy.laterOverlap
      { st1 with
        chunkCount := newCount
        audioBuffer := st.audioBuffer.drop (TRANSCRIPTION_CHUNK_SIZE - ov) }
  else st

/-! ## Finalization -/

/-- The double-space collapse loop of `finalizeTranscription`: every maximal
run of spaces becomes a single space. -/
def collapseSpaces : List Char → List Char
  | [] => []
  | [c] => [c]
  | c1 :: c2 :: rest =>
    if c1 = ' ' ∧ c2 = ' ' then collapseSpaces (c2 :: rest)
    else c1 :: collapseSpaces (c2 :: rest)

/-- The whitespace normalization of `finalizeTranscription`: collapse interior
space runs, then trim leading/trailing spaces (only `' '`, as in the source's
`find_first_not_of(" ")`). -/
def cleanTranscript (s : String) : String :=
  String.mk (((collapseSpaces s.toList).dropWhile (· = ' ')).reverse.dropWhile (· = ' ') |>.reverse)

/-- Everything `finalizeTranscription` produces: the reset session state, the
audio (if any) handed to the recognition engine for the final pass, and the
reported transcript (`none` when no "Complete transcription" block is
printed) together with the recorded-sample count used for the duration. -/
structure FinalizeResult where
  state : SessionState
  engineInput : Option (List Int)
  report : Option (String × Nat)
deriving Repr, DecidableEq

/-- `finalizeTranscription` from both variants (identical logic): when the
buffer is non-empty, a transcription started and at least `8000` samples
remain, a remainder of at least `CHUNK/2` samples is sent whole to the
recognition engine and any non-empty result is appended (without a trailing
space); a smaller remainder is skipped.  If a transcription started, the
cleaned transcript and `recorded_samples` are reported.  Buffer, running
text, started flag and sample count are then reset (the VAD counters and
`chunk_count` are not touched here). -/
def finalizeTranscription (recognize : List Int → String) (st : SessionState) :
    FinalizeResult :=
  let finalPass :=
    if st.audioBuffer ≠ [] ∧ st.transcriptionStarted = true ∧ 8000 ≤ st.audioBuffer.length then
      if TRANSCRIPTION_CHUNK_SIZE / 2 ≤ st.audioBuffer.length then
        let finalText := recognize st.audioBuffer
        (if finalText ≠ "" then st.currentTranscription ++ finalText else st.currentTranscription,
         some st.audioBuffer)
      else (st.currentTranscription, none)
    else (st.currentTranscription, none)
  let report :=
    if st.transcriptionStarted = true then
      some (cleanTranscript finalPass.1, st.recordedSamples)
    else none
  { state :=
      { st with
        audioBuffer := []
        currentTranscription := ""
        transcriptionStarted := false
        recordedSamples := 0 }
    engineInput := finalPass.2
    report := report }

/-! ## The streaming loop body (`startStreaming`) -/

/-- The listening branch of one `startStreaming` iteration before the two
termination checks: append the frame to the buffer and to
`recorded_samples`; on VAD silence (`vad_result == -2`) increment
`silence_counter`; otherwise zero `silence_counter`, increment
`speech_counter` and, when `speech_counter > MIN_SPEECH_LENGTH / 2048`, run
`processAudioChunk`; finally run `processAudioChunk` again whenever the
buffer holds at least a full chunk. -/
def frameAccumulate (pol : OverlapPolicy) (recognize : List Int → String)
    (st : SessionState) (samples : List Int) (vadResult : Int) : SessionState :=
  let st1 :=
    { st with
      audioBuffer := st.audioBuffer ++ samples
      recordedSamples := st.recordedSamples + samples.length }
  let st2 :=
    if vadResult = -2 then
      { st1 with silenceCounter := st1.silenceCounter + 1 }
    else
      let stSp := { st1 with silenceCounter := 0, speechCounter := st1.speechCounter + 1 }
      if MIN_SPEECH_LENGTH / 2048 < stSp.speechCounter then
        processAudioChunk pol recognize stSp
      else stSp
  if TRANSCRIPTION_CHUNK_SIZE ≤ st2.audioBuffer.length then
    processAudioChunk pol recognize st2
  else st2

/-- Leaving the listening state after a finalization. -/
def markIdle (st : SessionState) : SessionState :=
  { st with isListening := false }

/-- The full listening branch of one `startStreaming` iteration:
`frameAccumulate`, then finalize-and-idle when `silence_counter` reaches
`SILENCE_THRESHOLD`, then finalize-and-idle when the buffer exceeds the
60-second cutoff (`audio_buffer.size() > 16000 * 60`, strict). -/
def processFrame (pol : OverlapPolicy) (recognize : List Int → String)
    (st : SessionState) (samples : List Int) (vadResult : Int) : SessionState :=
  let st3 := frameAccumulate pol recognize st samples vadResult
  let st4 :=
    if SILENCE_THRESHOLD ≤ st3.silenceCounter then
      markIdle (finalizeTranscription recognize st3).state
    else st3
  if MAX_BUFFER_SAMPLES < st4.audioBuffer.length then
    markIdle (finalizeTranscription recognize st4).state
  else st4

/-- One full `startStreaming` loop iteration: while idle the frame goes to the
hotword detector (whose boolean verdict is the oracle `detected`), a positive
verdict resetting the cycle state; while listening the frame is processed by
`processFrame` with the VAD verdict oracle. -/
def loopIteration (pol : OverlapPolicy) (recognize : List Int → String)
    (st : SessionState) (samples : List Int) (detected : Bool) (vadResult : Int) :
    SessionState :=
  if st.isListening = false then
    if detected then resetForListening st else st
  else
    processFrame pol recognize st samples vadResult

/-- Iterating the loop over a list of frames, each with its detector and VAD
oracle outputs. -/
def runLoop (pol : OverlapPolicy) (recognize : List Int → String) :
    List (List Int × Bool × Int) → SessionState → SessionState
  | [], st => st
  | (samples, detected, vadResult) :: rest, st =>
    runLoop pol recognize rest (loopIteration pol recognize st samples detected vadResult)

/-! ## Instrumented chunk extraction (for the temporal-order and overlap claims)

A cycle's interleaving of buffer appends and `processAudioChunk` invocations
is abstracted as a list of events; the instrumentation records, for each
invocation that actually extracts a chunk, the extracted chunk, the overlap
retained and whether the SpeechGate accepted it.  `extractionRecords` changes
no behaviour: the state evolves by exactly `processAudioChunk` /
buffer-append. -/

/-- An event of a cycle: a frame append (with its `recorded_samples` update)
or one `processAudioChunk` invocation. -/
inductive StreamEvent where
  | frame (samples : List Int)
  | extract
deriving Repr

/-- The gate's verdict on the chunk `processAudioChunk` would extract now. -/
def chunkAccepted (st : SessionState) : Bool :=
  hasSubstantialSpeech (st.audioBuffer.take TRANSCRIPTION_CHUNK_SIZE)

/-- The overlap `processAudioChunk` retains for the chunk it would extract
now: the skip overlap on gate rejection, else the first/subsequent overlap
according to the incremented `chunk_count`. -/
def chunkOverlap (pol : OverlapPolicy) (st : SessionState) : Nat :=
  if chunkAccepted st then
    if st.chunkCount + 1 = 1 then pol.firstOverlap else pol.laterOverlap
  else pol.skipOverlap

/-- The state after one event. -/
def stepEvent (pol : OverlapPolicy) (recognize : List Int → String)
    (st : SessionState) : StreamEvent → SessionState
  | StreamEvent.frame f =>
    { st with
      audioBuffer := st.audioBuffer ++ f
      recordedSamples := st.recordedSamples + f.length }
  | StreamEvent.extract => processAudioChunk pol recognize st

/-- One extraction's observables. -/
structure ExtractionRec where
  chunk : List Int
  overlap : Nat
  accepted : Bool
deriving Repr, DecidableEq

/-- The chunks actually extracted (with their overlaps and gate verdicts)
when a list of events is run from a state. -/
def extractionRecords (pol : OverlapPolicy) (recognize : List Int → String) :
    List StreamEvent → SessionState → List ExtractionRec
  | [], _ => []
  | StreamEvent.frame f :: evs, st =>
    extractionRecords pol recognize evs (stepEvent pol recognize st (StreamEvent.frame f))
  | StreamEvent.extract :: evs, st =>
    if TRANSCRIPTION_CHUNK_SIZE ≤ st.audioBuffer.length then
      { chunk := st.audioBuffer.take TRANSCRIPTION_CHUNK_SIZE
        overlap := chunkOverlap pol st
        accepted := chunkAccepted st } ::
        extractionRecords pol recognize evs (processAudioChunk pol recognize st)
    else extractionRecords pol recognize evs st

/-- All audio captured by the events, in temporal order. -/
def capturedAudio : List StreamEvent → List Int
  | [] => []
  | StreamEvent.frame f :: evs => f ++ capturedAudio evs
  | StreamEvent.extract :: evs => capturedAudio evs

/-- Concatenation of the distinct (non-overlap) portions of successive
extracted chunks: the first chunk contributes wholly (after the `prevOv`
samples already contributed by the caller's previous chunk), each following
chunk contributes everything past the overlap retained before it. -/
def glueFrom (prevOv : Nat) : List ExtractionRec → List Int
  | [] => []
  | r :: rs => r.chunk.drop prevOv ++ glueFrom r.overlap rs

/-- Concatenation of the distinct portions of a whole extraction sequence. -/
def glueRecs (rs : List ExtractionRec) : List Int := glueFrom 0 rs

/-- The retained overlap samples reappear unchanged at the front of the next
extracted chunk, all along the sequence. -/
def overlapLinked : List ExtractionRec → Prop
  | [] => True
  | [_] => True
  | r1 :: r2 :: rs =>
    r2.chunk.take r1.overlap = r1.chunk.drop (TRANSCRIPTION_CHUNK_SIZE - r1.overlap) ∧
      overlapLinked (r2 :: rs)

/-- The overlaps of the gate-accepted extractions, in order. -/
def acceptedOverlaps (rs : List ExtractionRec) : List Nat :=
  (rs.filter (fun r => r.accepted)).map (fun r => r.overlap)

/-! ## Concrete policies, states and inputs used by the claim analyses -/

/-- Both variants' overlap constants are at most a chunk. -/
def overlapsWithinChunk (pol : OverlapPolicy) : Prop :=
  pol.skipOverlap ≤ TRANSCRIPTION_CHUNK_SIZE ∧
    pol.firstOverlap ≤ TRANSCRIPTION_CHUNK_SIZE ∧
    pol.laterOverlap ≤ TRANSCRIPTION_CHUNK_SIZE

/-- 96000 samples: 46500 loud samples then silence. -/
def c2Buffer : List Int := List.replicate 46500 1000 ++ List.replicate 49500 0

/-- One frame delivering `c2Buffer`, then two `processAudioChunk` invocations. -/
def c2Events : List StreamEvent :=
  [StreamEvent.frame c2Buffer, StreamEvent.extract, StreamEvent.extract]

def c2Recognize : List Int → String := fun _ => "ok"

/-- The state after the frame append of `c2Events`. -/
def c2St1 : SessionState :=
  stepEvent mainPolicy c2Recognize initialSession (StreamEvent.frame c2Buffer)

def c5Frame : List Int := List.replicate 1002000 0

def c5Recognize : List Int → String := fun _ => ""

/-- The state `frameAccumulate` hands `processAudioChunk` in silence. -/
def c5St2 : SessionState :=
  { audioBuffer := initialSession.audioBuffer ++ c5Frame
    isListening := initialSession.isListening
    silenceCounter := initialSession.silenceCounter + 1
    speechCounter := initialSession.speechCounter
    currentTranscription := initialSession.currentTranscription
    transcriptionStarted := initialSession.transcriptionStarted
    chunkCount := initialSession.chunkCount
    recordedSamples := initialSession.recordedSamples + c5Frame.length }

/-- A listening state in which five consecutive frames were just classified
as speech. -/
def c3State : SessionState :=
  { audioBuffer := [], isListening := true, silenceCounter := 0, speechCounter := 5,
    currentTranscription := "", transcriptionStarted := false, chunkCount := 0,
    recordedSamples := 0 }

/-- A listening state holding one gate-accepted chunk of loud audio. -/
def c4State : SessionState :=
  { audioBuffer := List.replicate 48000 1000, isListening := true, silenceCounter := 0,
    speechCounter := 0, currentTranscription := "", transcriptionStarted := false,
    chunkCount := 0, recordedSamples := 48000 }

/-- The recognizer oracle when `CreateProcessA` fails with Windows error 2. -/
def c4Recognize : List Int → String :=
  fun _ => transcribeWithWhisperProc (ProcOutcome.spawnFailure 2)

/-- A non-empty remaining buffer with no started transcription. -/
def c6State : SessionState :=
  { audioBuffer := [1, 2, 3], isListening := true, silenceCounter := 0, speechCounter := 0,
    currentTranscription := "", transcriptionStarted := false, chunkCount := 0,
    recordedSamples := 3 }

/-! ## Basic lemmas about the step functions -/

theorem processAudioChunk_of_lt (pol : OverlapPolicy) (r : List Int → String)
    (st : SessionState) (h : st.audioBuffer.length < TRANSCRIPTION_CHUNK_SIZE) :
    processAudioChunk pol r st = st := by
  unfold processAudioChunk
  rw [if_neg (by omega)]

/-- `processAudioChunk` only ever drops samples from the front of the buffer,
and the number kept is exactly the retained overlap. -/
theorem processAudioChunk_buffer (pol : OverlapPolicy) (r : List Int → String)
    (st : SessionState) (h : TRANSCRIPTION_CHUNK_SIZE ≤ st.audioBuffer.length) :
    (processAudioChunk pol r st).audioBuffer =
      st.audioBuffer.drop (TRANSCRIPTION_CHUNK_SIZE - chunkOverlap pol st) := by
  simp only [processAudioChunk, chunkOverlap, chunkAccepted, if_pos h]
  by_cases hg :
      hasSubstantialSpeech (st.audioBuffer.take TRANSCRIPTION_CHUNK_SIZE) = false
  · simp [hg]
  · rw [Bool.not_eq_false] at hg
    simp only [hg, Bool.true_eq_false, if_false, if_true]

theorem processAudioChunk_silenceCounter (pol : OverlapPolicy) (r : List Int → String)
    (st : SessionState) :
    (processAudioChunk pol r st).silenceCounter = st.silenceCounter := by
  simp only [processAudioChunk]
  repeat' split
  all_goals rfl

theorem processAudioChunk_speechCounter (pol : OverlapPolicy) (r : List Int → String)
    (st : SessionState) :
    (processAudioChunk pol r st).speechCounter = st.speechCounter := by
  simp only [processAudioChunk]
  repeat' split
  all_goals rfl

theorem processAudioChunk_isListening (pol : OverlapPolicy) (r : List Int → String)
    (st : SessionState) :
    (processAudioChunk pol r st).isListening = st.isListening := by
  simp only [processAudioChunk]
  repeat' split
  all_goals rfl

/-- `chunk_count` advances exactly on gate-accepted extractions. -/
theorem processAudioChunk_chunkCount (pol : OverlapPolicy) (r : List Int → String)
    (st : SessionState) (h : TRANSCRIPTION_CHUNK_SIZE ≤ st.audioBuffer.length) :
    (processAudioChunk pol r st).chunkCount =
      if chunkAccepted st then st.chunkCount + 1 else st.chunkCount := by
  simp only [processAudioChunk, chunkAccepted, if_pos h]
  by_cases hg :
      hasSubstantialSpeech (st.audioBuffer.take TRANSCRIPTION_CHUNK_SIZE) = false
  · simp [hg]
  · rw [Bool.not_eq_false] at hg
    simp only [hg, Bool.true_eq_false, if_false, if_true]

/-- The variant-specific `processAudioChunkWst` is the generic step at
`wstPolicy` with the inline hallucination filter composed into the
recognizer oracle. -/
theorem processAudioChunkWst_eq (r : List Int → String) (st : SessionState) :
    processAudioChunkWst r st =
      processAudioChunk wstPolicy
        (fun c => if isHallucination (r c) then "" else r c) st := by
  unfold processAudioChunkWst processAudioChunk
  by_cases hl : TRANSCRIPTION_CHUNK_SIZE ≤ st.audioBuffer.length
  · rw [if_pos hl, if_pos hl]
    by_cases hg :
        hasSubstantialSpeech (st.audioBuffer.take TRANSCRIPTION_CHUNK_SIZE) = false
    · simp [hg]
    · rw [Bool.not_eq_false] at hg
      simp only [hg, Bool.true_eq_false, if_false, if_true]
      by_cases hh : isHallucination (r (st.audioBuffer.take TRANSCRIPTION_CHUNK_SIZE)) = true
      · simp [hh]
      · rw [Bool.not_eq_true] at hh
        simp [hh]
  · rw [if_neg hl, if_neg hl]

/-! ## Temporal-order infrastructure -/

theorem mainPolicy_within : overlapsWithinChunk mainPolicy := by
  refine ⟨?_, ?_, ?_⟩ <;> decide

theorem wstPolicy_within : overlapsWithinChunk wstPolicy := by
  refine ⟨?_, ?_, ?_⟩ <;> decide

theorem chunkOverlap_le (pol : OverlapPolicy) (hp : overlapsWithinChunk pol)
    (st : SessionState) : chunkOverlap pol st ≤ TRANSCRIPTION_CHUNK_SIZE := by
  unfold chunkOverlap
  split
  · split
    · exact hp.2.1
    · exact hp.2.2
  · exact hp.1

theorem drop_take_glue (buf : List Int) (k n : Nat) (_ : k ≤ n) (hn : n ≤ buf.length) :
    (buf.take n).drop k ++ buf.drop n = buf.drop k := by
  have h1 : k ≤ (buf.take n).length := by
    rw [List.length_take]; omega
  conv_rhs => rw [← List.take_append_drop n buf, List.drop_append_of_le_length h1]

/-- Main gluing invariant: running any interleaving of frame appends and
`processAudioChunk` invocations, the concatenation of the distinct portions
of the extracted chunks (past any `k` samples the caller has already
accounted for) is an initial segment of the unprocessed buffer followed by
the audio yet to be captured. -/
theorem glueFrom_initial_segment (pol : OverlapPolicy) (hp : overlapsWithinChunk pol)
    (r : List Int → String) :
    ∀ (evs : List StreamEvent) (st : SessionState) (k : Nat),
      k ≤ TRANSCRIPTION_CHUNK_SIZE → k ≤ st.audioBuffer.length →
      ∃ t, glueFrom k (extractionRecords pol r evs st) ++ t =
        st.audioBuffer.drop k ++ capturedAudio evs := by
  intro evs
  induction evs with
  | nil =>
    intro st k _ _
    exact ⟨st.audioBuffer.drop k, by simp [extractionRecords, glueFrom, capturedAudio]⟩
  | cons ev evs ih =>
    cases ev with
    | frame f =>
      intro st k hk hkb
      have hkb' : k ≤ (stepEvent pol r st (StreamEvent.frame f)).audioBuffer.length := by
        simp only [stepEvent, List.length_append]
        omega
      obtain ⟨t, ht⟩ := ih (stepEvent pol r st (StreamEvent.frame f)) k hk hkb'
      refine ⟨t, ?_⟩
      rw [show extractionRecords pol r (StreamEvent.frame f :: evs) st =
            extractionRecords pol r evs (stepEvent pol r st (StreamEvent.frame f)) from rfl]
      rw [ht]
      simp only [stepEvent, capturedAudio]
      rw [List.drop_append_of_le_length hkb, List.append_assoc]
    | extract =>
      intro st k hk hkb
      by_cases hfull : TRANSCRIPTION_CHUNK_SIZE ≤ st.audioBuffer.length
      · have hrec : extractionRecords pol r (StreamEvent.extract :: evs) st =
            { chunk := st.audioBuffer.take TRANSCRIPTION_CHUNK_SIZE
              overlap := chunkOverlap pol st
              accepted := chunkAccepted st } ::
              extractionRecords pol r evs (processAudioChunk pol r st) := by
          rw [extractionRecords, if_pos hfull]
        set ov := chunkOverlap pol st with hov
        have hovle : ov ≤ TRANSCRIPTION_CHUNK_SIZE := chunkOverlap_le pol hp st
        have hbuf : (processAudioChunk pol r st).audioBuffer =
            st.audioBuffer.drop (TRANSCRIPTION_CHUNK_SIZE - ov) :=
          processAudioChunk_buffer pol r st hfull
        have hlen : ov ≤ (processAudioChunk pol r st).audioBuffer.length := by
          rw [hbuf, List.length_drop]
          omega
        obtain ⟨t, ht⟩ := ih (processAudioChunk pol r st) ov hovle hlen
        refine ⟨t, ?_⟩
        rw [hrec]
        simp only [glueFrom, capturedAudio]
        rw [List.append_assoc, ht, hbuf, List.drop_drop]
        have hsum : TRANSCRIPTION_CHUNK_SIZE - ov + ov = TRANSCRIPTION_CHUNK_SIZE := by omega
        rw [hsum, ← List.append_assoc, drop_take_glue st.audioBuffer k TRANSCRIPTION_CHUNK_SIZE hk hfull]
      · have hrec : extractionRecords pol r (StreamEvent.extract :: evs) st =
            extractionRecords pol r evs st := by
          rw [extractionRecords, if_neg hfull]
        obtain ⟨t, ht⟩ := ih st k hk hkb
        refine ⟨t, ?_⟩
        rw [hrec, ht]
        rfl

/-- The first chunk extracted by a run takes its first `k` samples from the
front of the starting buffer, for any `k` within both. -/
theorem extractionRecords_head_take (pol : OverlapPolicy) (r : List Int → String) :
    ∀ (evs : List StreamEvent) (st : SessionState) (rec : ExtractionRec)
      (rest : List ExtractionRec),
      extractionRecords pol r evs st = rec :: rest →
      ∀ k, k ≤ TRANSCRIPTION_CHUNK_SIZE → k ≤ st.audioBuffer.length →
      rec.chunk.take k = st.audioBuffer.take k := by
  intro evs
  induction evs with
  | nil => intro st rec rest h; simp [extractionRecords] at h
  | cons ev evs ih =>
    cases ev with
    | frame f =>
      intro st rec rest h k hk hkb
      have h' : extractionRecords pol r evs (stepEvent pol r st (StreamEvent.frame f)) =
          rec :: rest := h
      rw [ih _ rec rest h' k hk
        (by simp only [stepEvent, List.length_append]; omega)]
      simp only [stepEvent]
      exact List.take_append_of_le_length hkb
    | extract =>
      intro st rec rest h k hk hkb
      by_cases hfull : TRANSCRIPTION_CHUNK_SIZE ≤ st.audioBuffer.length
      · rw [extractionRecords, if_pos hfull] at h
        obtain ⟨rfl, -⟩ := by exact And.intro (List.cons.inj h).1 (List.cons.inj h).2
        simp only [List.take_take]
        rw [min_eq_left hk]
      · rw [extractionRecords, if_neg hfull] at h
        exact ih st rec rest h k hk hkb

/-- In every run, the overlap samples retained by one extraction reappear
unchanged at the front of the next extracted chunk. -/
theorem extractionRecords_linked (pol : OverlapPolicy) (hp : overlapsWithinChunk pol)
    (r : List Int → String) :
    ∀ (evs : List StreamEvent) (st : SessionState),
      overlapLinked (extractionRecords pol r evs st) := by
  intro evs
  induction evs with
  | nil => intro st; simp [extractionRecords, overlapLinked]
  | cons ev evs ih =>
    cases ev with
    | frame f => intro st; exact ih (stepEvent pol r st (StreamEvent.frame f))
    | extract =>
      intro st
      by_cases hfull : TRANSCRIPTION_CHUNK_SIZE ≤ st.audioBuffer.length
      · rw [extractionRecords, if_pos hfull]
        set st' := processAudioChunk pol r st with hst'
        cases hrest : extractionRecords pol r evs st' with
        | nil => exact trivial
        | cons rec2 rest2 =>
          refine ⟨?_, by rw [← hrest]; exact ih st'⟩
          set ov := chunkOverlap pol st with hov
          have hovle : ov ≤ TRANSCRIPTION_CHUNK_SIZE := chunkOverlap_le pol hp st
          have hbuf : st'.audioBuffer =
              st.audioBuffer.drop (TRANSCRIPTION_CHUNK_SIZE - ov) :=
            processAudioChunk_buffer pol r st hfull
          have hlen : ov ≤ st'.audioBuffer.length := by
            rw [hbuf, List.length_drop]; omega
          have hhead := extractionRecords_head_take pol r evs st' rec2 rest2 hrest ov hovle hlen
          rw [hhead, hbuf, List.take_drop]
          have hsum : TRANSCRIPTION_CHUNK_SIZE - ov + ov = TRANSCRIPTION_CHUNK_SIZE := by omega
          rw [hsum]
      · rw [extractionRecords, if_neg hfull]
        exact ih st

/-- Every extracted chunk is exactly one chunk long. -/
theorem extractionRecords_chunk_length (pol : OverlapPolicy) (r : List Int → String) :
    ∀ (evs : List StreamEvent) (st : SessionState) (rec : ExtractionRec),
      rec ∈ extractionRecords pol r evs st →
      rec.chunk.length = TRANSCRIPTION_CHUNK_SIZE := by
  intro evs
  induction evs with
  | nil => intro st rec h; simp [extractionRecords] at h
  | cons ev evs ih =>
    cases ev with
    | frame f =>
      intro st rec h
      exact ih (stepEvent pol r st (StreamEvent.frame f)) rec h
    | extract =>
      intro st rec h
      by_cases hfull : TRANSCRIPTION_CHUNK_SIZE ≤ st.audioBuffer.length
      · rw [extractionRecords, if_pos hfull] at h
        rcases List.mem_cons.mp h with h1 | h2
        · subst h1
          simp only [List.length_take]
          omega
        · exact ih (processAudioChunk pol r st) rec h2
      · rw [extractionRecords, if_neg hfull] at h
        exact ih st rec h

/-! ## Overlap-evolution infrastructure -/

theorem sumSquares_append (l1 l2 : List Int) :
    sumSquares (l1 ++ l2) = sumSquares l1 + sumSquares l2 := by
  unfold sumSquares
  rw [List.map_append, List.sum_append]

theorem sumSquares_replicate (n : Nat) (c : Int) :
    sumSquares (List.replicate n c) = n * (c * c) := by
  unfold sumSquares
  rw [List.map_replicate, List.sum_replicate, nsmul_eq_mul]

theorem speechSamples_append (l1 l2 : List Int) :
    speechSamples (l1 ++ l2) = speechSamples l1 + speechSamples l2 := by
  unfold speechSamples
  rw [List.countP_append]

theorem speechSamples_replicate (n : Nat) (c : Int) :
    speechSamples (List.replicate n c) = if (200 : Int) < |c| then n else 0 := by
  unfold speechSamples
  rw [List.countP_replicate]
  by_cases h : (200 : Int) < |c| <;> simp [h]

/-- The SpeechGate rejects every all-zero buffer (of any length). -/
theorem hasSubstantialSpeech_replicate_zero (n : Nat) :
    hasSubstantialSpeech (List.replicate n 0) = false := by
  cases n with
  | zero => rfl
  | succ m =>
    have hcond : sumSquares (List.replicate (m + 1) (0 : Int)) <
        2500 * (((List.replicate (m + 1) (0 : Int)).length : Int)) := by
      rw [sumSquares_replicate, List.length_replicate]
      have h2 : (0 : ℤ) < 2500 * ((m : ℤ) + 1) := by positivity
      push_cast
      have h0 : ((m : ℤ) + 1) * (0 * 0) = 0 := by ring
      linarith
    unfold hasSubstantialSpeech
    rw [if_neg (by simp [List.isEmpty_iff]), if_pos hcond]

/-- The record of a gate-rejected extraction always carries the skip overlap. -/
theorem extractionRecords_rejected_overlap (pol : OverlapPolicy) (r : List Int → String) :
    ∀ (evs : List StreamEvent) (st : SessionState) (rec : ExtractionRec),
      rec ∈ extractionRecords pol r evs st → rec.accepted = false →
      rec.overlap = pol.skipOverlap := by
  intro evs
  induction evs with
  | nil => intro st rec h; simp [extractionRecords] at h
  | cons ev evs ih =>
    cases ev with
    | frame f =>
      intro st rec h hacc
      exact ih (stepEvent pol r st (StreamEvent.frame f)) rec h hacc
    | extract =>
      intro st rec h hacc
      by_cases hfull : TRANSCRIPTION_CHUNK_SIZE ≤ st.audioBuffer.length
      · rw [extractionRecords, if_pos hfull] at h
        rcases List.mem_cons.mp h with h1 | h2
        · subst h1
          simp only at hacc
          unfold chunkOverlap
          rw [if_neg (by simp [hacc])]
        · exact ih (processAudioChunk pol r st) rec h2 hacc
      · rw [extractionRecords, if_neg hfull] at h
        exact ih st rec h hacc

/-- Shape of the accepted-extraction overlaps: from a state that has already
accepted a chunk they are all the subsequent-chunk overlap; from a fresh state
they are empty or the first-chunk overlap followed by subsequent-chunk
overlaps. -/
theorem acceptedOverlaps_shape (pol : OverlapPolicy) (r : List Int → String) :
    ∀ (evs : List StreamEvent) (st : SessionState),
      (st.chunkCount ≠ 0 →
        ∀ o ∈ acceptedOverlaps (extractionRecords pol r evs st), o = pol.laterOverlap) ∧
      (st.chunkCount = 0 →
        acceptedOverlaps (extractionRecords pol r evs st) = [] ∨
        ∃ l, acceptedOverlaps (extractionRecords pol r evs st) = pol.firstOverlap :: l ∧
          ∀ o ∈ l, o = pol.laterOverlap) := by
  intro evs
  induction evs with
  | nil =>
    intro st
    constructor
    · intro _ o ho
      simp [extractionRecords, acceptedOverlaps] at ho
    · intro _
      left
      simp [extractionRecords, acceptedOverlaps]
  | cons ev evs ih =>
    cases ev with
    | frame f =>
      intro st
      exact ih (stepEvent pol r st (StreamEvent.frame f))
    | extract =>
      intro st
      by_cases hfull : TRANSCRIPTION_CHUNK_SIZE ≤ st.audioBuffer.length
      · by_cases hacc : chunkAccepted st = true
        · have hcc : (processAudioChunk pol r st).chunkCount = st.chunkCount + 1 := by
            rw [processAudioChunk_chunkCount pol r st hfull, if_pos hacc]
          have hne : (processAudioChunk pol r st).chunkCount ≠ 0 := by omega
          have hlater := (ih (processAudioChunk pol r st)).1 hne
          have hlist : acceptedOverlaps (extractionRecords pol r (StreamEvent.extract :: evs) st) =
              chunkOverlap pol st ::
                acceptedOverlaps (extractionRecords pol r evs (processAudioChunk pol r st)) := by
            rw [extractionRecords, if_pos hfull]
            simp [acceptedOverlaps, List.filter_cons, hacc]
          constructor
          · intro hst o ho
            rw [hlist] at ho
            rcases List.mem_cons.mp ho with h1 | h2
            · subst h1
              unfold chunkOverlap
              rw [if_pos hacc, if_neg (by omega)]
            · exact hlater o h2
          · intro hst
            right
            refine ⟨acceptedOverlaps (extractionRecords pol r evs (processAudioChunk pol r st)),
              ?_, hlater⟩
            rw [hlist]
            congr 1
            unfold chunkOverlap
            rw [if_pos hacc, if_pos (by omega)]
        · have hcc : (processAudioChunk pol r st).chunkCount = st.chunkCount := by
            rw [processAudioChunk_chunkCount pol r st hfull, if_neg hacc]
          have hlist : acceptedOverlaps (extractionRecords pol r (StreamEvent.extract :: evs) st) =
              acceptedOverlaps (extractionRecords pol r evs (processAudioChunk pol r st)) := by
            rw [extractionRecords, if_pos hfull]
            simp only [Bool.not_eq_true] at hacc
            simp [acceptedOverlaps, List.filter_cons, hacc]
          constructor
          · intro hst o ho
            rw [hlist] at ho
            exact (ih (processAudioChunk pol r st)).1 (by omega) o ho
          · intro hst
            rw [hlist]
            exact (ih (processAudioChunk pol r st)).2 (by omega)
      · have hlist : extractionRecords pol r (StreamEvent.extract :: evs) st =
            extractionRecords pol r evs st := by
          rw [extractionRecords, if_neg hfull]
        rw [hlist]
        exact ih st

/-- A first element at least `a`, followed by elements all equal to `a`, is
non-increasing. -/
theorem chain_ge_of_all_eq (a : Nat) :
    ∀ (l : List Nat) (f : Nat), a ≤ f → (∀ o ∈ l, o = a) →
      List.Chain' (fun x y => y ≤ x) (f :: l) := by
  intro l
  induction l with
  | nil => intro f _ _; simp
  | cons b l ih =>
    intro f hfa hall
    have hb : b = a := hall b (List.mem_cons_self b l)
    subst hb
    rw [List.chain'_cons]
    exact ⟨hfa, ih b (le_refl b) (fun o ho => hall o (List.mem_cons_of_mem b ho))⟩

/-! ## Frame-processing lemmas -/

theorem finalize_state_silenceCounter (r : List Int → String) (st : SessionState) :
    (finalizeTranscription r st).state.silenceCounter = st.silenceCounter := rfl

theorem finalize_state_speechCounter (r : List Int → String) (st : SessionState) :
    (finalizeTranscription r st).state.speechCounter = st.speechCounter := rfl

theorem finalize_state_audioBuffer (r : List Int → String) (st : SessionState) :
    (finalizeTranscription r st).state.audioBuffer = [] := rfl

/-- In the silence case the accumulation phase is `processAudioChunk` applied
to the appended state with the incremented silence counter (when a full chunk
is buffered), never touching the speech counter. -/
theorem frameAccumulate_silence_eq (pol : OverlapPolicy) (r : List Int → String)
    (st : SessionState) (samples : List Int)
    (h : TRANSCRIPTION_CHUNK_SIZE ≤ (st.audioBuffer ++ samples).length) :
    frameAccumulate pol r st samples (-2) =
      processAudioChunk pol r
        { audioBuffer := st.audioBuffer ++ samples
          isListening := st.isListening
          silenceCounter := st.silenceCounter + 1
          speechCounter := st.speechCounter
          currentTranscription := st.currentTranscription
          transcriptionStarted := st.transcriptionStarted
          chunkCount := st.chunkCount
          recordedSamples := st.recordedSamples + samples.length } := by
  simp only [frameAccumulate, if_true]
  rw [if_pos h]

theorem frameAccumulate_silence_counters (pol : OverlapPolicy) (r : List Int → String)
    (st : SessionState) (samples : List Int) :
    (frameAccumulate pol r st samples (-2)).silenceCounter = st.silenceCounter + 1 ∧
    (frameAccumulate pol r st samples (-2)).speechCounter = st.speechCounter := by
  simp only [frameAccumulate, if_true]
  split
  · rw [processAudioChunk_silenceCounter, processAudioChunk_speechCounter]
    exact ⟨rfl, rfl⟩
  · exact ⟨rfl, rfl⟩

theorem markIdle_finalize_buffer (r : List Int → String) (s : SessionState) :
    (markIdle (finalizeTranscription r s).state).audioBuffer = [] := rfl

theorem markIdle_finalize_isListening (r : List Int → String) (s : SessionState) :
    (markIdle (finalizeTranscription r s).state).isListening = false := rfl

theorem processFrame_counters_silence (pol : OverlapPolicy) (r : List Int → String)
    (st : SessionState) (samples : List Int) :
    (processFrame pol r st samples (-2)).silenceCounter = st.silenceCounter + 1 ∧
    (processFrame pol r st samples (-2)).speechCounter = st.speechCounter := by
  obtain ⟨h1, h2⟩ := frameAccumulate_silence_counters pol r st samples
  simp only [processFrame]
  by_cases hsil : SILENCE_THRESHOLD ≤ (frameAccumulate pol r st samples (-2)).silenceCounter
  · rw [if_pos hsil, if_neg (by simp [markIdle_finalize_buffer])]
    exact ⟨h1, h2⟩
  · rw [if_neg hsil]
    by_cases hcut : MAX_BUFFER_SAMPLES <
        (frameAccumulate pol r st samples (-2)).audioBuffer.length
    · rw [if_pos hcut]; exact ⟨h1, h2⟩
    · rw [if_neg hcut]; exact ⟨h1, h2⟩

/-- After any processed frame the buffer cannot exceed the safety cutoff:
the final check clears any larger buffer. -/
theorem processFrame_buffer_le (pol : OverlapPolicy) (r : List Int → String)
    (st : SessionState) (samples : List Int) (v : Int) :
    (processFrame pol r st samples v).audioBuffer.length ≤ MAX_BUFFER_SAMPLES := by
  simp only [processFrame]
  by_cases hsil : SILENCE_THRESHOLD ≤ (frameAccumulate pol r st samples v).silenceCounter
  · rw [if_pos hsil, if_neg (by simp [markIdle_finalize_buffer])]
    simp [markIdle_finalize_buffer]
  · rw [if_neg hsil]
    by_cases hcut : MAX_BUFFER_SAMPLES <
        (frameAccumulate pol r st samples v).audioBuffer.length
    · rw [if_pos hcut]
      simp [markIdle_finalize_buffer]
    · rw [if_neg hcut]
      omega

/-- Whenever the accumulation phase leaves more than the cutoff in the buffer,
the frame forces finalization: the session leaves Listening with an empty
buffer. -/
theorem processFrame_forced_idle (pol : OverlapPolicy) (r : List Int → String)
    (st : SessionState) (samples : List Int) (v : Int)
    (h : MAX_BUFFER_SAMPLES < (frameAccumulate pol r st samples v).audioBuffer.length) :
    (processFrame pol r st samples v).isListening = false ∧
    (processFrame pol r st samples v).audioBuffer = [] := by
  simp only [processFrame]
  by_cases hsil : SILENCE_THRESHOLD ≤ (frameAccumulate pol r st samples v).silenceCounter
  · rw [if_pos hsil, if_neg (by simp [markIdle_finalize_buffer])]
    exact ⟨rfl, rfl⟩
  · rw [if_neg hsil, if_pos h]
    exact ⟨rfl, rfl⟩

/-- A frame processed with neither termination check firing is just the
accumulation phase. -/
theorem processFrame_no_cutoff (pol : OverlapPolicy) (r : List Int → String)
    (st : SessionState) (samples : List Int) (v : Int)
    (h1 : (frameAccumulate pol r st samples v).silenceCounter < SILENCE_THRESHOLD)
    (h2 : ¬ MAX_BUFFER_SAMPLES < (frameAccumulate pol r st samples v).audioBuffer.length) :
    processFrame pol r st samples v = frameAccumulate pol r st samples v := by
  have hsil : ¬ SILENCE_THRESHOLD ≤ (frameAccumulate pol r st samples v).silenceCounter := by
    omega
  simp only [processFrame]
  rw [if_neg hsil, if_neg h2]

theorem loopIteration_buffer_le (pol : OverlapPolicy) (r : List Int → String)
    (st : SessionState) (samples : List Int) (detected : Bool) (v : Int)
    (h : st.audioBuffer.length ≤ MAX_BUFFER_SAMPLES) :
    (loopIteration pol r st samples detected v).audioBuffer.length ≤ MAX_BUFFER_SAMPLES := by
  unfold loopIteration
  split
  · split
    · simp [resetForListening]
    · exact h
  · exact processFrame_buffer_le pol r st samples v

theorem runLoop_buffer_le (pol : OverlapPolicy) (r : List Int → String) :
    ∀ (inputs : List (List Int × Bool × Int)) (st : SessionState),
      st.audioBuffer.length ≤ MAX_BUFFER_SAMPLES →
      (runLoop pol r inputs st).audioBuffer.length ≤ MAX_BUFFER_SAMPLES := by
  intro inputs
  induction inputs with
  | nil => intro st h; exact h
  | cons input rest ih =>
    intro st h
    obtain ⟨samples, detected, v⟩ := input
    exact ih _ (loopIteration_buffer_le pol r st samples detected v h)

/-! ## Concrete gate evaluations -/

theorem isEmpty_false_of_length_pos (l : List Int) (h : 0 < l.length) :
    l.isEmpty = false := by
  cases l with
  | nil => simp at h
  | cons a t => rfl

theorem gate_accepts_loud :
    hasSubstantialSpeech (List.replicate 48000 (1000 : Int)) = true := by
  have hlen : (List.replicate 48000 (1000 : Int)).length = 48000 :=
    List.length_replicate 48000 1000
  have hS : sumSquares (List.replicate 48000 (1000 : Int)) = 48000000000 := by
    rw [sumSquares_replicate]; norm_num
  have hsp : speechSamples (List.replicate 48000 (1000 : Int)) = 48000 := by
    rw [speechSamples_replicate]; norm_num
  unfold hasSubstantialSpeech
  rw [hS, hsp, hlen, isEmpty_false_of_length_pos _ (by rw [hlen]; norm_num)]
  norm_num

theorem gate_accepts_c2chunk :
    hasSubstantialSpeech
      (List.replicate 46500 (1000 : Int) ++ List.replicate 1500 0) = true := by
  have hlen : (List.replicate 46500 (1000 : Int) ++ List.replicate 1500 0).length = 48000 := by
    rw [List.length_append, List.length_replicate, List.length_replicate]
  have hS : sumSquares (List.replicate 46500 (1000 : Int) ++ List.replicate 1500 0) =
      46500000000 := by
    rw [sumSquares_append, sumSquares_replicate, sumSquares_replicate]; norm_num
  have hsp : speechSamples (List.replicate 46500 (1000 : Int) ++ List.replicate 1500 0) =
      46500 := by
    rw [speechSamples_append, speechSamples_replicate, speechSamples_replicate]; norm_num
  unfold hasSubstantialSpeech
  rw [hS, hsp, hlen, isEmpty_false_of_length_pos _ (by rw [hlen]; norm_num)]
  norm_num

/-! ## The cycle that makes the retained overlap grow (for the overlap claim)

`main.cpp` constants: a gate-accepted first chunk retains `1500` samples, and
a gate-rejected chunk afterwards retains `6000`. -/

theorem c2St1_buffer : c2St1.audioBuffer = c2Buffer := by
  show [] ++ c2Buffer = c2Buffer
  exact List.nil_append c2Buffer

theorem c2Buffer_length : c2Buffer.length = 96000 := by
  unfold c2Buffer
  rw [List.length_append, List.length_replicate, List.length_replicate]

theorem c2_len1 : TRANSCRIPTION_CHUNK_SIZE ≤ c2St1.audioBuffer.length := by
  rw [c2St1_buffer, c2Buffer_length]
  decide

theorem c2_chunk1 : c2St1.audioBuffer.take TRANSCRIPTION_CHUNK_SIZE =
    List.replicate 46500 (1000 : Int) ++ List.replicate 1500 0 := by
  rw [c2St1_buffer]
  show (List.replicate 46500 (1000 : Int) ++ List.replicate 49500 0).take 48000 =
    List.replicate 46500 (1000 : Int) ++ List.replicate 1500 0
  rw [List.take_append_eq_append_take, List.take_replicate, List.take_replicate]
  norm_num

theorem c2_acc1 : chunkAccepted c2St1 = true := by
  unfold chunkAccepted
  rw [c2_chunk1]
  exact gate_accepts_c2chunk

theorem c2_ov1 : chunkOverlap mainPolicy c2St1 = 1500 := by
  unfold chunkOverlap
  rw [if_pos c2_acc1, if_pos (by rfl)]
  decide

theorem c2_buf2 : (processAudioChunk mainPolicy c2Recognize c2St1).audioBuffer =
    List.replicate 49500 (0 : Int) := by
  rw [processAudioChunk_buffer mainPolicy c2Recognize c2St1 c2_len1, c2_ov1, c2St1_buffer]
  show (List.replicate 46500 (1000 : Int) ++ List.replicate 49500 0).drop (48000 - 1500) =
    List.replicate 49500 (0 : Int)
  rw [List.drop_append_eq_append_drop, List.drop_replicate, List.drop_replicate]
  norm_num

theorem c2_len2 : TRANSCRIPTION_CHUNK_SIZE ≤
    (processAudioChunk mainPolicy c2Recognize c2St1).audioBuffer.length := by
  rw [c2_buf2, List.length_replicate]
  decide

theorem c2_acc2 : chunkAccepted (processAudioChunk mainPolicy c2Recognize c2St1) = false := by
  unfold chunkAccepted
  rw [c2_buf2, List.take_replicate]
  exact hasSubstantialSpeech_replicate_zero _

theorem c2_ov2 : chunkOverlap mainPolicy (processAudioChunk mainPolicy c2Recognize c2St1) =
    6000 := by
  unfold chunkOverlap
  rw [if_neg (by rw [c2_acc2]; exact Bool.false_ne_true)]
  rfl

/-- The extraction trace of `c2Events` retains 1500 samples after the first
(accepted) chunk and 6000 after the second (rejected) one: the overlap grew. -/
theorem c2_overlap_trace :
    (extractionRecords mainPolicy c2Recognize c2Events initialSession).map
      (fun rec => rec.overlap) = [1500, 6000] := by
  have h0 : extractionRecords mainPolicy c2Recognize c2Events initialSession =
      extractionRecords mainPolicy c2Recognize [StreamEvent.extract, StreamEvent.extract]
        c2St1 := rfl
  rw [h0]
  rw [extractionRecords, if_pos c2_len1]
  rw [extractionRecords, if_pos c2_len2]
  have h3 : extractionRecords mainPolicy c2Recognize []
      (processAudioChunk mainPolicy c2Recognize
        (processAudioChunk mainPolicy c2Recognize c2St1)) = [] := rfl
  rw [h3]
  simp only [List.map_cons, List.map_nil]
  rw [c2_ov1, c2_ov2]

/-! ## A frame that fills the buffer to exactly the cutoff (for the safety claim) -/

theorem initialSession_audioBuffer : initialSession.audioBuffer = [] := rfl

theorem c5Frame_length : c5Frame.length = 1002000 := by
  unfold c5Frame
  rw [List.length_replicate]

theorem c5_append_len :
    TRANSCRIPTION_CHUNK_SIZE ≤ (initialSession.audioBuffer ++ c5Frame).length := by
  rw [List.length_append, initialSession_audioBuffer, c5Frame_length, List.length_nil]
  decide

theorem c5_fa_eq : frameAccumulate mainPolicy c5Recognize initialSession c5Frame (-2) =
    processAudioChunk mainPolicy c5Recognize c5St2 :=
  frameAccumulate_silence_eq mainPolicy c5Recognize initialSession c5Frame c5_append_len

theorem c5St2_buffer : c5St2.audioBuffer = List.replicate 1002000 (0 : Int) := by
  show initialSession.audioBuffer ++ c5Frame = List.replicate 1002000 (0 : Int)
  rw [initialSession_audioBuffer, List.nil_append]
  rfl

theorem c5St2_len : TRANSCRIPTION_CHUNK_SIZE ≤ c5St2.audioBuffer.length := by
  rw [c5St2_buffer, List.length_replicate]
  decide

theorem c5St2_rejected : chunkAccepted c5St2 = false := by
  unfold chunkAccepted
  rw [c5St2_buffer, List.take_replicate]
  exact hasSubstantialSpeech_replicate_zero _

theorem c5St2_ov : chunkOverlap mainPolicy c5St2 = 6000 := by
  unfold chunkOverlap
  rw [if_neg (by rw [c5St2_rejected]; exact Bool.false_ne_true)]
  rfl

theorem c5_fa_buffer :
    (frameAccumulate mainPolicy c5Recognize initialSession c5Frame (-2)).audioBuffer =
      List.replicate 960000 (0 : Int) := by
  rw [c5_fa_eq, processAudioChunk_buffer mainPolicy c5Recognize c5St2 c5St2_len, c5St2_ov,
    c5St2_buffer, List.drop_replicate]
  norm_num [TRANSCRIPTION_CHUNK_SIZE]

theorem c5_fa_silence :
    (frameAccumulate mainPolicy c5Recognize initialSession c5Frame (-2)).silenceCounter = 1 :=
  (frameAccumulate_silence_counters mainPolicy c5Recognize initialSession c5Frame).1

/-- Processing the 1002000-sample silent frame from a fresh listening state
leaves exactly `16000 * 60` samples buffered and the session still Listening:
the buffer reaches the cutoff value without triggering the cutoff. -/
theorem c5_exact_cutoff_reached :
    (processFrame mainPolicy c5Recognize initialSession c5Frame (-2)).audioBuffer.length =
      MAX_BUFFER_SAMPLES ∧
    (processFrame mainPolicy c5Recognize initialSession c5Frame (-2)).isListening = true := by
  have hnc : processFrame mainPolicy c5Recognize initialSession c5Frame (-2) =
      frameAccumulate mainPolicy c5Recognize initialSession c5Frame (-2) := by
    refine processFrame_no_cutoff mainPolicy c5Recognize initialSession c5Frame (-2) ?_ ?_
    · rw [c5_fa_silence]
      decide
    · rw [c5_fa_buffer, List.length_replicate]
      decide
  rw [hnc]
  constructor
  · rw [c5_fa_buffer, List.length_replicate]
    decide
  · rw [c5_fa_eq, processAudioChunk_isListening]
    rfl

/-! ## Recognizer-failure behaviour (error-handling claim) -/

/-- The buffer consumed by `processAudioChunk` does not depend on what the
recognizer returned. -/
theorem processAudioChunk_buffer_indep (pol : OverlapPolicy)
    (r1 r2 : List Int → String) (st : SessionState) :
    (processAudioChunk pol r1 st).audioBuffer = (processAudioChunk pol r2 st).audioBuffer := by
  by_cases h : TRANSCRIPTION_CHUNK_SIZE ≤ st.audioBuffer.length
  · rw [processAudioChunk_buffer pol r1 st h, processAudioChunk_buffer pol r2 st h]
  · rw [processAudioChunk_of_lt pol r1 st (by omega),
      processAudioChunk_of_lt pol r2 st (by omega)]

/-- Neither does the chunk counter. -/
theorem processAudioChunk_chunkCount_indep (pol : OverlapPolicy)
    (r1 r2 : List Int → String) (st : SessionState) :
    (processAudioChunk pol r1 st).chunkCount = (processAudioChunk pol r2 st).chunkCount := by
  by_cases h : TRANSCRIPTION_CHUNK_SIZE ≤ st.audioBuffer.length
  · rw [processAudioChunk_chunkCount pol r1 st h, processAudioChunk_chunkCount pol r2 st h]
  · rw [processAudioChunk_of_lt pol r1 st (by omega),
      processAudioChunk_of_lt pol r2 st (by omega)]

/-- An empty recognition result leaves the transcript and the started flag
untouched. -/
theorem processAudioChunk_empty_text (pol : OverlapPolicy) (st : SessionState) :
    (processAudioChunk pol (fun _ => "") st).currentTranscription =
      st.currentTranscription ∧
    (processAudioChunk pol (fun _ => "") st).transcriptionStarted =
      st.transcriptionStarted := by
  simp only [processAudioChunk]
  split
  · split
    · exact ⟨rfl, rfl⟩
    · simp
  · exact ⟨rfl, rfl⟩

/-- The gate-accepted, non-hallucinated path of the process-spawn variant's
`processAudioChunk`: the recognizer's text is appended verbatim (plus a
trailing space) and the transcription is marked started. -/
theorem processAudioChunkWst_accepted_text (r : List Int → String) (st : SessionState)
    (hlen : TRANSCRIPTION_CHUNK_SIZE ≤ st.audioBuffer.length)
    (hgate : hasSubstantialSpeech (st.audioBuffer.take TRANSCRIPTION_CHUNK_SIZE) = true)
    (htext : r (st.audioBuffer.take TRANSCRIPTION_CHUNK_SIZE) ≠ "")
    (hhal : isHallucination (r (st.audioBuffer.take TRANSCRIPTION_CHUNK_SIZE)) = false) :
    (processAudioChunkWst r st).currentTranscription =
      st.currentTranscription ++ r (st.audioBuffer.take TRANSCRIPTION_CHUNK_SIZE) ++ " " ∧
    (processAudioChunkWst r st).transcriptionStarted = true := by
  simp only [processAudioChunkWst]
  rw [if_pos hlen, if_neg (by rw [hgate]; simp),
    if_pos (And.intro htext hhal)]
  exact ⟨rfl, rfl⟩

/-! ## Exact-arithmetic characterizations of the SpeechGate -/

theorem sumSquares_nonneg (chunk : List Int) : 0 ≤ sumSquares chunk := by
  unfold sumSquares
  apply List.sum_nonneg
  intro x hx
  obtain ⟨s, -, rfl⟩ := List.mem_map.mp hx
  exact mul_self_nonneg s

theorem meanSq_lt_iff (chunk : List Int) (hn : (0:ℚ) < (chunk.length : ℚ)) :
    ((sumSquares chunk : ℚ) / (chunk.length : ℚ) < 2500) ↔
      sumSquares chunk < 2500 * (chunk.length : Int) := by
  rw [div_lt_iff₀ hn]
  constructor
  · intro hx; exact_mod_cast hx
  · intro hx; exact_mod_cast hx

theorem ratio_lt_iff (chunk : List Int) (hn : (0:ℚ) < (chunk.length : ℚ)) :
    ((speechSamples chunk : ℚ) / (chunk.length : ℚ) < 5 / 1000) ↔
      200 * speechSamples chunk < chunk.length := by
  rw [div_lt_iff₀ hn]
  constructor
  · intro hx
    have hr : 200 * (speechSamples chunk : ℚ) < (chunk.length : ℚ) := by linarith
    exact_mod_cast hr
  · intro hx
    have hr : 200 * (speechSamples chunk : ℚ) < (chunk.length : ℚ) := by exact_mod_cast hx
    linarith

/-- What acceptance means in exact integer arithmetic. -/
theorem hasSubstantialSpeech_iff_int (chunk : List Int) (h : chunk ≠ []) :
    hasSubstantialSpeech chunk = true ↔
      (2500 * (chunk.length : Int) ≤ sumSquares chunk ∧
        chunk.length ≤ 200 * speechSamples chunk) := by
  have he : chunk.isEmpty = false :=
    isEmpty_false_of_length_pos chunk (List.length_pos.mpr h)
  unfold hasSubstantialSpeech
  rw [he]
  simp only [Bool.false_eq_true, if_false]
  by_cases h1 : sumSquares chunk < 2500 * (chunk.length : Int)
  · rw [if_pos h1]
    simp only [Bool.false_eq_true, false_iff]
    omega
  · rw [if_neg h1]
    by_cases h2 : 200 * speechSamples chunk < chunk.length
    · rw [if_pos h2]
      simp only [Bool.false_eq_true, false_iff]
      omega
    · rw [if_neg h2]
      simp only [true_iff]
      omega

theorem rms_condition_real (chunk : List Int) (h : chunk ≠ []) :
    (50 ≤ Real.sqrt ((sumSquares chunk : ℝ) / (chunk.length : ℝ))) ↔
      2500 * (chunk.length : Int) ≤ sumSquares chunk := by
  have hn : (0:ℝ) < (chunk.length : ℝ) := by
    have := List.length_pos.mpr h
    exact_mod_cast this
  have hdiv : (0:ℝ) ≤ (sumSquares chunk : ℝ) / (chunk.length : ℝ) :=
    div_nonneg (by exact_mod_cast sumSquares_nonneg chunk) (le_of_lt hn)
  rw [Real.le_sqrt (by norm_num) hdiv]
  rw [show ((50:ℝ) ^ 2 = 2500) by norm_num]
  rw [le_div_iff₀ hn]
  constructor
  · intro hx
    have hr : (2500:ℝ) * (chunk.length : ℝ) ≤ (sumSquares chunk : ℝ) := by linarith
    exact_mod_cast hr
  · intro hx
    have hr : (2500:ℝ) * (chunk.length : ℝ) ≤ (sumSquares chunk : ℝ) := by exact_mod_cast hx
    linarith

theorem ratio_condition_real (chunk : List Int) (h : chunk ≠ []) :
    ((5 / 1000 : ℝ) ≤ (speechSamples chunk : ℝ) / (chunk.length : ℝ)) ↔
      chunk.length ≤ 200 * speechSamples chunk := by
  have hn : (0:ℝ) < (chunk.length : ℝ) := by
    have := List.length_pos.mpr h
    exact_mod_cast this
  rw [le_div_iff₀ hn]
  constructor
  · intro hx
    have hr : (chunk.length : ℝ) ≤ 200 * (speechSamples chunk : ℝ) := by linarith
    exact_mod_cast hr
  · intro hx
    have hr : (chunk.length : ℝ) ≤ 200 * (speechSamples chunk : ℝ) := by exact_mod_cast hx
    linarith

/-! ## Claim theorems -/

/-- C1: chunks are extracted only from the front of audioBuffer in strict
temporal order — every extracted chunk is one full chunk-size slice taken
from the buffer front, the retained overlap samples reappear unchanged at
the front of the next extracted chunk, and the concatenation of the distinct
(non-overlap) portions of successive extracted chunks, in extraction order,
is an initial segment of the captured audio stream: each captured sample is
reproduced exactly once, in order (the unprocessed tail stays in the buffer
for later extraction or finalization).  Holds for both variants' overlap
constants, any recognizer behaviour and any interleaving of frame arrivals
with `processAudioChunk` invocations within a cycle. -/
theorem claim1_chunk_extraction_temporal_order (pol : OverlapPolicy)
    (hpol : pol = mainPolicy ∨ pol = wstPolicy) (recognize : List Int → String)
    (evs : List StreamEvent) :
    (∀ rec ∈ extractionRecords pol recognize evs initialSession,
        rec.chunk.length = TRANSCRIPTION_CHUNK_SIZE) ∧
    overlapLinked (extractionRecords pol recognize evs initialSession) ∧
    ∃ t, glueRecs (extractionRecords pol recognize evs initialSession) ++ t =
      capturedAudio evs := by
  have hp : overlapsWithinChunk pol := by
    rcases hpol with h | h
    · rw [h]; exact mainPolicy_within
    · rw [h]; exact wstPolicy_within
  refine ⟨fun rec hm =>
      extractionRecords_chunk_length pol recognize evs initialSession rec hm,
    extractionRecords_linked pol hp recognize evs initialSession, ?_⟩
  obtain ⟨t, ht⟩ := glueFrom_initial_segment pol hp recognize evs initialSession 0
    (by omega) (by rw [initialSession_audioBuffer]; exact Nat.zero_le _)
  rw [initialSession_audioBuffer] at ht
  refine ⟨t, ?_⟩
  unfold glueRecs
  simpa using ht

/-- Witness for C1: the theorem applied to the `main.cpp` overlap constants
on a concrete (empty) event interleaving. -/
theorem claim1_witness :
    (∀ rec ∈ extractionRecords mainPolicy (fun _ => "") [] initialSession,
        rec.chunk.length = TRANSCRIPTION_CHUNK_SIZE) ∧
    overlapLinked (extractionRecords mainPolicy (fun _ => "") [] initialSession) ∧
    ∃ t, glueRecs (extractionRecords mainPolicy (fun _ => "") [] initialSession) ++ t =
      capturedAudio [] :=
  claim1_chunk_extraction_temporal_order mainPolicy (Or.inl rfl) (fun _ => "") []

/-- C2 counterexample: in a `main.cpp` cycle whose first chunk is
gate-accepted (1500 samples retained) and whose second chunk is gate-rejected
(6000 samples retained), the overlap retained after the second extraction
exceeds the overlap retained after the first: overlaps can grow within a
cycle, and the first extracted chunk's overlap is not ≥ all later ones. -/
theorem claim2_counterexample :
    (extractionRecords mainPolicy c2Recognize c2Events initialSession).map
      (fun rec => rec.overlap) = [1500, 6000] ∧ ¬ (6000 : Nat) ≤ 1500 :=
  ⟨c2_overlap_trace, by omega⟩

/-- C2 amended: monotonicity holds among the gate-accepted extractions — the
overlap retained after an accepted extraction never exceeds the overlap
retained after an earlier accepted extraction (first accepted chunk's
overlap ≥ every later accepted chunk's) — while every gate-rejected
extraction retains the fixed skip overlap, which is larger and may follow an
accepted extraction. -/
theorem claim2_amended_accepted_overlaps_monotone (pol : OverlapPolicy)
    (hpol : pol = mainPolicy ∨ pol = wstPolicy) (recognize : List Int → String)
    (evs : List StreamEvent) :
    List.Chain' (fun x y => y ≤ x)
      (acceptedOverlaps (extractionRecords pol recognize evs initialSession)) ∧
    ∀ rec ∈ extractionRecords pol recognize evs initialSession,
      rec.accepted = false → rec.overlap = pol.skipOverlap := by
  have hfl : pol.laterOverlap ≤ pol.firstOverlap := by
    rcases hpol with h | h
    · rw [h]; decide
    · rw [h]; decide
  constructor
  · rcases (acceptedOverlaps_shape pol recognize evs initialSession).2 rfl with
      h0 | ⟨l, hl, hall⟩
    · rw [h0]; exact List.chain'_nil
    · rw [hl]
      exact chain_ge_of_all_eq pol.laterOverlap l pol.firstOverlap hfl hall
  · exact fun rec hm hacc =>
      extractionRecords_rejected_overlap pol recognize evs initialSession rec hm hacc

/-- Witness for the amended C2: the `main.cpp` constants on a concrete run. -/
theorem claim2_witness :
    List.Chain' (fun x y => y ≤ x)
      (acceptedOverlaps (extractionRecords mainPolicy (fun _ => "x") [] initialSession)) ∧
    ∀ rec ∈ extractionRecords mainPolicy (fun _ => "x") [] initialSession,
      rec.accepted = false → rec.overlap = mainPolicy.skipOverlap :=
  claim2_amended_accepted_overlaps_monotone mainPolicy (Or.inl rfl) (fun _ => "x") []

/-- C3 counterexample: while Listening with speechRunLength 5, processing a
VAD-silence frame increments silenceRunLength but leaves speechRunLength at
5 — it is not reset to 0 as the claim states. -/
theorem claim3_counterexample :
    (loopIteration mainPolicy (fun _ => "") c3State [] true (-2)).silenceCounter = 1 ∧
    (loopIteration mainPolicy (fun _ => "") c3State [] true (-2)).speechCounter = 5 ∧
    (5 : Nat) ≠ 0 :=
  ⟨by decide, by decide, by decide⟩

/-- C3 amended: while Listening, a frame the classifier deems silence
(`vad_result == -2`) increments silenceRunLength by one and leaves
speechRunLength unchanged; only the hotword transition resets it. -/
theorem claim3_amended_silence_step (pol : OverlapPolicy) (recognize : List Int → String)
    (st : SessionState) (samples : List Int) (detected : Bool)
    (h : st.isListening = true) :
    (loopIteration pol recognize st samples detected (-2)).silenceCounter =
      st.silenceCounter + 1 ∧
    (loopIteration pol recognize st samples detected (-2)).speechCounter =
      st.speechCounter := by
  unfold loopIteration
  rw [if_neg (by rw [h]; simp)]
  exact processFrame_counters_silence pol recognize st samples

/-- Witness for the amended C3 at a concrete listening state. -/
theorem claim3_witness :
    (loopIteration mainPolicy (fun _ => "") c3State [] false (-2)).silenceCounter =
      c3State.silenceCounter + 1 ∧
    (loopIteration mainPolicy (fun _ => "") c3State [] false (-2)).speechCounter =
      c3State.speechCounter :=
  claim3_amended_silence_step mainPolicy (fun _ => "") c3State [] false rfl

/-- C4 counterexample: in the process-spawn variant, a `CreateProcessA`
failure (error code 2) during a gate-accepted chunk's recognition returns
"[CreateProcess failed: 2]", which passes the hallucination filter and is
appended to the transcript — failure text is not treated as an empty
result. -/
theorem claim4_counterexample :
    (processAudioChunkWst c4Recognize c4State).currentTranscription =
      "[CreateProcess failed: 2] " ∧
    (processAudioChunkWst c4Recognize c4State).transcriptionStarted = true ∧
    c4State.currentTranscription = "" := by
  have hlen : TRANSCRIPTION_CHUNK_SIZE ≤ c4State.audioBuffer.length := by
    show TRANSCRIPTION_CHUNK_SIZE ≤ (List.replicate 48000 (1000 : Int)).length
    rw [List.length_replicate]
    decide
  have hch : c4State.audioBuffer.take TRANSCRIPTION_CHUNK_SIZE =
      List.replicate 48000 (1000 : Int) := by
    show (List.replicate 48000 (1000 : Int)).take TRANSCRIPTION_CHUNK_SIZE = _
    rw [List.take_replicate]
    norm_num [TRANSCRIPTION_CHUNK_SIZE]
  have hgate : hasSubstantialSpeech
      (c4State.audioBuffer.take TRANSCRIPTION_CHUNK_SIZE) = true := by
    rw [hch]; exact gate_accepts_loud
  obtain ⟨h1, h2⟩ := processAudioChunkWst_accepted_text c4Recognize c4State hlen hgate
    (by decide) (by decide)
  refine ⟨?_, h2, rfl⟩
  rw [h1]
  decide

/-- C4 amended: a failed `whisper_full` call in the C-API variant is treated
as the empty result, an empty result leaves the transcript and started flag
untouched, and the chunk is consumed identically whatever the recognizer
returns (buffer, chunk counter and listening flag are recognizer-independent)
— so such a failure cannot abort the session; but in the process-spawn
variant a pipe/process-creation failure yields bracketed error text rather
than an empty result (which the counterexample shows reaching the
transcript). -/
theorem claim4_amended_failure_handling :
    transcribeWithWhisper CapiOutcome.engineError = "" ∧
    (∀ (pol : OverlapPolicy) (r1 r2 : List Int → String) (st : SessionState),
      (processAudioChunk pol r1 st).audioBuffer =
        (processAudioChunk pol r2 st).audioBuffer ∧
      (processAudioChunk pol r1 st).chunkCount =
        (processAudioChunk pol r2 st).chunkCount) ∧
    (∀ (pol : OverlapPolicy) (r : List Int → String) (st : SessionState),
      (processAudioChunk pol r st).isListening = st.isListening) ∧
    (∀ (pol : OverlapPolicy) (st : SessionState),
      (processAudioChunk pol (fun _ => "") st).currentTranscription =
        st.currentTranscription ∧
      (processAudioChunk pol (fun _ => "") st).transcriptionStarted =
        st.transcriptionStarted) ∧
    transcribeWithWhisperProc (ProcOutcome.spawnFailure 2) =
      "[CreateProcess failed: 2]" := by
  refine ⟨rfl, ?_, ?_, ?_, by decide⟩
  · exact fun pol r1 r2 st =>
      ⟨processAudioChunk_buffer_indep pol r1 r2 st,
        processAudioChunk_chunkCount_indep pol r1 r2 st⟩
  · exact fun pol r st => processAudioChunk_isListening pol r st
  · exact fun pol st => processAudioChunk_empty_text pol st

/-- C5 counterexample: a single silent 1002000-sample frame fed to a fresh
listening cycle of the `main.cpp` variant leaves the buffer at exactly
`16000 * 60` samples with the session still Listening — the buffer length
reaches (is not strictly below) the 60-second cutoff value, because the
cutoff test is strict (`>`). -/
theorem claim5_counterexample :
    (loopIteration mainPolicy c5Recognize initialSession c5Frame false (-2)).audioBuffer.length
      = 16000 * 60 ∧
    (loopIteration mainPolicy c5Recognize initialSession c5Frame false (-2)).isListening
      = true := by
  have hli : loopIteration mainPolicy c5Recognize initialSession c5Frame false (-2) =
      processFrame mainPolicy c5Recognize initialSession c5Frame (-2) := by
    unfold loopIteration
    rw [if_neg (by decide)]
  rw [hli]
  exact c5_exact_cutoff_reached

/-- C5 amended: the buffer never exceeds the cutoff — after any sequence of
loop iterations starting within the bound, the buffer length is at most
`16000 * 60` (the bound itself is attained, so strict `<` fails) — and any
frame whose accumulation phase leaves more than the cutoff buffered forces
finalization back to Idle with a cleared buffer, for any silence-counter
value (in particular silenceRunLength 0). -/
theorem claim5_amended_cutoff (pol : OverlapPolicy) (recognize : List Int → String)
    (st : SessionState) (inputs : List (List Int × Bool × Int))
    (samples : List Int) (detected : Bool) (v : Int)
    (hst : st.audioBuffer.length ≤ 16000 * 60) :
    (runLoop pol recognize inputs st).audioBuffer.length ≤ 16000 * 60 ∧
    (st.isListening = true →
      16000 * 60 < (frameAccumulate pol recognize st samples v).audioBuffer.length →
      (loopIteration pol recognize st samples detected v).isListening = false ∧
      (loopIteration pol recognize st samples detected v).audioBuffer = []) := by
  constructor
  · exact runLoop_buffer_le pol recognize inputs st hst
  · intro hlis hover
    have hli : loopIteration pol recognize st samples detected v =
        processFrame pol recognize st samples v := by
      unfold loopIteration
      rw [if_neg (by rw [hlis]; simp)]
    rw [hli]
    exact processFrame_forced_idle pol recognize st samples v hover

/-- Witness for the amended C5 at a concrete in-bound state. -/
theorem claim5_witness :
    initialSession.audioBuffer.length ≤ 16000 * 60 ∧
    (runLoop mainPolicy (fun _ => "") [] initialSession).audioBuffer.length ≤ 16000 * 60 :=
  ⟨by decide,
    (claim5_amended_cutoff mainPolicy (fun _ => "") initialSession [] [] false 0
      (by decide)).1⟩

/-- C6: on finalization, the recognition engine is invoked — on the entire
remaining buffer, never a chunk-sized slice — exactly when the buffer is
non-empty, a transcription started, and at least half a chunk (24000
samples) remains; a smaller remainder is discarded (the buffer is always
cleared) without a recognition call; and with started = false no engine call
is made and no transcript is reported. -/
theorem claim6_finalization (recognize : List Int → String) (st : SessionState) :
    ((finalizeTranscription recognize st).engineInput = some st.audioBuffer ↔
      (st.audioBuffer ≠ [] ∧ st.transcriptionStarted = true ∧
        TRANSCRIPTION_CHUNK_SIZE / 2 ≤ st.audioBuffer.length)) ∧
    ((finalizeTranscription recognize st).engineInput = none ∨
      (finalizeTranscription recognize st).engineInput = some st.audioBuffer) ∧
    (st.transcriptionStarted = false →
      (finalizeTranscription recognize st).engineInput = none ∧
      (finalizeTranscription recognize st).report = none) ∧
    (finalizeTranscription recognize st).state.audioBuffer = [] := by
  by_cases hA : st.audioBuffer ≠ [] ∧ st.transcriptionStarted = true ∧
      8000 ≤ st.audioBuffer.length
  · by_cases hB : TRANSCRIPTION_CHUNK_SIZE / 2 ≤ st.audioBuffer.length
    · have hei : (finalizeTranscription recognize st).engineInput = some st.audioBuffer := by
        simp only [finalizeTranscription, if_pos hA, if_pos hB]
      refine ⟨?_, Or.inr hei, ?_, rfl⟩
      · rw [hei]
        constructor
        · intro _
          exact ⟨hA.1, hA.2.1, hB⟩
        · intro _
          rfl
      · intro hf
        rw [hA.2.1] at hf
        exact absurd hf (by decide)
    · have hei : (finalizeTranscription recognize st).engineInput = none := by
        simp only [finalizeTranscription, if_pos hA, if_neg hB]
      refine ⟨?_, Or.inl hei, ?_, rfl⟩
      · rw [hei]
        constructor
        · intro hc
          exact Option.noConfusion hc
        · intro hc
          exact absurd hc.2.2 hB
      · intro hf
        rw [hA.2.1] at hf
        exact absurd hf (by decide)
  · have hei : (finalizeTranscription recognize st).engineInput = none := by
      simp only [finalizeTranscription, if_neg hA]
    refine ⟨?_, Or.inl hei, ?_, rfl⟩
    · rw [hei]
      constructor
      · intro hc
        exact Option.noConfusion hc
      · intro hc
        exact absurd ⟨hc.1, hc.2.1,
          le_trans (by norm_num [TRANSCRIPTION_CHUNK_SIZE]) hc.2.2⟩ hA
    · intro hf
      refine ⟨hei, ?_⟩
      simp only [finalizeTranscription]
      rw [if_neg (by rw [hf]; decide)]

/-- Witness for C6: finalizing with started = false and a non-empty buffer
neither invokes the engine nor reports a transcript. -/
theorem claim6_witness :
    (finalizeTranscription (fun _ => "hello") c6State).engineInput = none ∧
    (finalizeTranscription (fun _ => "hello") c6State).report = none :=
  (claim6_finalization (fun _ => "hello") c6State).2.2.1 rfl

/-- C7: a non-empty chunk passes the SpeechGate iff its RMS
(`sqrt(sum_squares / n)` in exact real arithmetic) is at least the minimum-RMS
threshold 50 and the fraction of samples with |s| > 200 is at least the
minimum-activity-ratio threshold 0.005; and the all-zero chunk of the same
length is always rejected. -/
theorem claim7_speechgate_characterization (chunk : List Int) (h : chunk ≠ []) :
    (hasSubstantialSpeech chunk = true ↔
      (50 ≤ Real.sqrt ((sumSquares chunk : ℝ) / (chunk.length : ℝ)) ∧
        (5 / 1000 : ℝ) ≤ (speechSamples chunk : ℝ) / (chunk.length : ℝ))) ∧
    hasSubstantialSpeech (List.replicate chunk.length 0) = false := by
  refine ⟨?_, hasSubstantialSpeech_replicate_zero chunk.length⟩
  rw [hasSubstantialSpeech_iff_int chunk h, rms_condition_real chunk h,
    ratio_condition_real chunk h]

/-- Witness for C7 at the one-sample chunk `[300]`. -/
theorem claim7_witness :
    ([(300 : Int)] ≠ []) ∧
    ((hasSubstantialSpeech [(300 : Int)] = true ↔
      (50 ≤ Real.sqrt ((sumSquares [(300 : Int)] : ℝ) /
          (([(300 : Int)] : List Int).length : ℝ)) ∧
        (5 / 1000 : ℝ) ≤ (speechSamples [(300 : Int)] : ℝ) /
          (([(300 : Int)] : List Int).length : ℝ))) ∧
    hasSubstantialSpeech (List.replicate ([(300 : Int)] : List Int).length 0) = false) :=
  ⟨by decide, claim7_speechgate_characterization [(300 : Int)] (by decide)⟩

/-- C8: the HallucinationFilter rejects "Thanks for watching" (and it
contributes nothing when assembling the engine's segments) and accepts
"set a timer for five minutes" unchanged. -/
theorem claim8_filter_examples :
    acceptSegment "Thanks for watching" = none ∧
    acceptSegment "set a timer for five minutes" = some "set a timer for five minutes" ∧
    transcribeWithWhisper
      (CapiOutcome.ok ["Thanks for watching", "set a timer for five minutes"]) =
      "set a timer for five minutes" :=
  ⟨by decide, by decide, by decide⟩

/-- C9: the SpeechGate is total over all chunks — on the empty chunk it
returns rejection immediately, and the guarded-division model (which returns
`none` whenever a division by the chunk length would divide by zero) never
fails and agrees with the gate everywhere; in particular its divisions are
never performed on an empty chunk. -/
theorem claim9_empty_chunk_safety :
    hasSubstantialSpeechQ [] = some false ∧
    (∀ chunk : List Int, hasSubstantialSpeechQ chunk = some (hasSubstantialSpeech chunk)) := by
  refine ⟨rfl, ?_⟩
  intro chunk
  rcases eq_or_ne chunk [] with rfl | h
  · rfl
  · have hlenpos : 0 < chunk.length := List.length_pos.mpr h
    have hn : (0:ℚ) < (chunk.length : ℚ) := by exact_mod_cast hlenpos
    have hne : ((chunk.length : ℚ)) ≠ 0 := ne_of_gt hn
    have he : chunk.isEmpty = false := isEmpty_false_of_length_pos chunk hlenpos
    unfold hasSubstantialSpeechQ hasSubstantialSpeech divQ
    rw [he]
    simp only [Bool.false_eq_true, if_false, if_neg hne, Option.some_bind]
    by_cases h1 : (sumSquares chunk : ℚ) / (chunk.length : ℚ) < 2500
    · rw [if_pos h1, if_pos ((meanSq_lt_iff chunk hn).mp h1)]
    · rw [if_neg h1, if_neg (fun hc => h1 ((meanSq_lt_iff chunk hn).mpr hc))]
      by_cases h2 : (speechSamples chunk : ℚ) / (chunk.length : ℚ) < 5 / 1000
      · rw [if_pos h2, if_pos ((ratio_lt_iff chunk hn).mp h2)]
      · rw [if_neg h2, if_neg (fun hc => h2 ((ratio_lt_iff chunk hn).mpr hc))]

/-- C10: any segment whose lowercased text contains a blacklisted fragment
anywhere is rejected whole; "audio", "music", "transcript", "subscribe" and
"thank you" are among the fragments, so the genuine speech segments
"turn the audio up" and "play some music" contribute nothing to the
transcript. -/
theorem claim10_substring_rejection :
    (∀ (s frag : String), frag ∈ hallucinationFragments →
      strContains (s.toList.map asciiLower) frag.toList = true →
      isHallucination s = true) ∧
    ("audio" ∈ hallucinationFragments ∧ "music" ∈ hallucinationFragments ∧
      "transcript" ∈ hallucinationFragments ∧ "subscribe" ∈ hallucinationFragments ∧
      "thank you" ∈ hallucinationFragments) ∧
    acceptSegment "turn the audio up" = none ∧
    acceptSegment "play some music" = none := by
  refine ⟨?_, by decide, by decide, by decide⟩
  intro s frag hmem hsub
  unfold isHallucination
  rw [if_pos ?_]
  exact List.any_eq_true.mpr ⟨frag, hmem, hsub⟩

/-- Witness for C10: "audio" is a listed fragment occurring in
"turn the audio up", so the filter rejects the whole segment. -/
theorem claim10_witness :
    ("audio" ∈ hallucinationFragments ∧
      strContains ("turn the audio up".toList.map asciiLower) "audio".toList = true) ∧
    isHallucination "turn the audio up" = true :=
  ⟨⟨by decide, by decide⟩,
    claim10_substring_rejection.1 "turn the audio up" "audio" (by decide) (by decide)⟩
